import Mathlib

/-!
Verification of the masking core of `dm-structured-data-anonymizer`
(src/main.py, class `DataAnonymizer`).

The embedding translates the source's rule dispatch
(`_apply_masking_rule`), the regex classification table
(`_generate_masked_value_from_regex`), the mapping-mode walker
(`_anonymize_data`), the sequence-mode walker (`anonymize_csv`) and the
tree-mode walker (`_anonymize_xml_element`) into pure Lean functions.

The process-wide pseudo-random state shared by the `random` module and the
`Faker` instance is modelled as an explicit generator state (`Gen`) threaded
through every call, and the `Faker` object as an abstract table of supported
attribute names together with the value each call produces from one draw of
the generator.
-/

/-- Python values occurring in the records the walkers handle: strings,
integers, and the Python `None` value.  Other payloads (nested objects,
floats, booleans) are opaque to the walkers in exactly the same way an
integer is, so these constructors suffice for the claims. -/
inductive Value where
  | str (s : String)
  | int (n : Int)
  | none
deriving Repr, DecidableEq

/-- Python `str()` applied to a modelled value. -/
def pyStr : Value → String
  | Value.str s => s
  | Value.int n => toString n
  | Value.none => "None"

/-- Deterministic model of the shared pseudo-random state: an infinite
stream of draws and the position of the next draw.  Each call into the
`random` module or into `Faker` consumes one draw and advances the position,
which models the fact that consecutive calls in the source share and advance
a single generator state. -/
structure Gen where
  stream : Nat → Nat
  pos : Nat

/-- Takes one draw and advances the state. -/
def Gen.next (g : Gen) : Nat × Gen :=
  (g.stream g.pos, { g with pos := g.pos + 1 })

/-- Abstract model of the `Faker` synthetic-data source: which attribute
names exist on the object, and the string a call to an attribute produces
from the draw it takes. -/
structure Faker where
  supported : String → Bool
  gen : String → Nat → String

/-- Tests whether the first character list is an initial run of the
second. -/
def charsLead : List Char → List Char → Bool
  | [], _ => true
  | _ :: _, [] => false
  | p :: ps, c :: cs => p = c && charsLead ps cs

/-- Python `s.startswith(pre)`, computed on the character lists so that the
kernel can evaluate it. -/
def strHasLead (pre s : String) : Bool := charsLead pre.data s.data

/-- Python slicing `s[n:]`. -/
def strDropN (s : String) (n : Nat) : String := String.mk (s.data.drop n)

/-- Python `s.endswith(c)` for a single character. -/
def charsEndWith (c : Char) (s : String) : Bool :=
  match s.data.getLast? with
  | some x => x = c
  | Option.none => false

/-- Python `s.split(sep)` for a single-character separator, on character
lists. -/
def splitAtChar (sep : Char) : List Char → List (List Char)
  | [] => [[]]
  | c :: cs =>
    let r := splitAtChar sep cs
    if c = sep then [] :: r
    else
      match r with
      | [] => [[c]]
      | h :: t => (c :: h) :: t

/-- Removes leading spaces. -/
def dropSpaces : List Char → List Char
  | [] => []
  | c :: cs => if c = ' ' then dropSpaces cs else c :: cs

/-- Python `s.strip()` restricted to the space character, the only
whitespace occurring in the rule strings of interest. -/
def trimChars (l : List Char) : List Char :=
  ((dropSpaces l).reverse |> dropSpaces).reverse

/-- Value of a decimal digit character. -/
def digitVal? (c : Char) : Option Nat :=
  if c = '0' then some 0 else if c = '1' then some 1 else if c = '2' then some 2
  else if c = '3' then some 3 else if c = '4' then some 4 else if c = '5' then some 5
  else if c = '6' then some 6 else if c = '7' then some 7 else if c = '8' then some 8
  else if c = '9' then some 9 else Option.none

/-- Accumulating decimal reading of a digit run. -/
def digitsToNatAux : List Char → Nat → Option Nat
  | [], a => some a
  | c :: cs, a =>
    match digitVal? c with
    | some d => digitsToNatAux cs (a * 10 + d)
    | Option.none => Option.none

/-- Python `int(s)` for an all-digits string. -/
def parseNatLit : List Char → Option Nat
  | [] => Option.none
  | l => digitsToNatAux l 0

/-- Python `int(s)` for an optionally negated all-digits string. -/
def parseIntLit : List Char → Option Int
  | '-' :: rest => (parseNatLit rest).map (fun n => -(n : Int))
  | l => (parseNatLit l).map (fun n => (n : Int))

/-- Recognizes the call shape `random.randint(a, b)` with two integer
literal arguments, optionally surrounded by spaces, and returns the two
bounds.  This is the parsing Python performs when `eval` receives a string
of this shape (src/main.py line 158 passes the whole rule string to
`eval`). -/
def parseRandintCall (s : String) : Option (Int × Int) :=
  if strHasLead "random.randint(" s && charsEndWith ')' s then
    match splitAtChar ',' ((s.data.drop 15).dropLast) with
    | [a, b] =>
      match parseIntLit (trimChars a), parseIntLit (trimChars b) with
      | some x, some y => some (x, y)
      | _, _ => Option.none
    | _ => Option.none
  else Option.none

/-- Recognizes the call shape `random.getrandbits(k)` with one natural
number literal argument. -/
def parseGetrandbitsCall (s : String) : Option Nat :=
  if strHasLead "random.getrandbits(" s && charsEndWith ')' s then
    parseNatLit (trimChars ((s.data.drop 19).dropLast))
  else Option.none

/-- Models Python's `eval` on the `random.`-prefixed rule strings the source
passes to it.  `random.randint(a, b)` takes one draw and returns an integer
in `[a, b]` when `a ≤ b`, and raises `ValueError` when `a > b`;
`random.getrandbits(k)` takes one draw and returns an integer in
`[0, 2 ^ k)`.  Every other string is modelled as raising; the theorems below
use that case only at strings on which Python's `eval` does raise, such as
`random.bogus(1,2,3)`, which raises `AttributeError`. -/
def pyEval (s : String) (g : Gen) : Except Unit Value × Gen :=
  match parseRandintCall s with
  | some ab =>
    if ab.1 ≤ ab.2 then
      let d := g.next
      (Except.ok (Value.int (ab.1 + (d.1 : Int) % (ab.2 - ab.1 + 1))), d.2)
    else (Except.error (), g)
  | Option.none =>
    match parseGetrandbitsCall s with
    | some k =>
      let d := g.next
      (Except.ok (Value.int ((d.1 : Int) % ((2 : Int) ^ k))), d.2)
    | Option.none => (Except.error (), g)

/-- The SSN pattern of `_generate_masked_value_from_regex`
(src/main.py line 183). -/
def ssnPattern : String := "^\\d\x7b3\x7d-\\d\x7b2\x7d-\\d\x7b4\x7d$"

/-- The e-mail pattern of `_generate_masked_value_from_regex`
(src/main.py line 185). -/
def emailPattern : String := "^[A-Za-z0-9._%+-]+@[A-Za-z0-9.-]+\\.[A-Z|a-z]\x7b2,\x7d$"

/-- The phone pattern of `_generate_masked_value_from_regex`
(src/main.py line 187). -/
def phonePattern : String := "^\\d\x7b10\x7d$"

/-- Translation of `DataAnonymizer._generate_masked_value_from_regex`
(src/main.py lines 171-192): the declared pattern is compared for exact
string equality against three known patterns, each delegating to the
corresponding `Faker` category; every other pattern yields the fixed
placeholder string and no branch raises. -/
def generateMaskedValueFromRegex (fk : Faker) (pat : String) (g : Gen) : String × Gen :=
  if pat = ssnPattern then
    let d := g.next
    (fk.gen "ssn" d.1, d.2)
  else if pat = emailPattern then
    let d := g.next
    (fk.gen "email" d.1, d.2)
  else if pat = phonePattern then
    let d := g.next
    (fk.gen "phone_number" d.1, d.2)
  else ("[MASKED_VALUE]", g)

/-- Translation of `DataAnonymizer._apply_masking_rule` (src/main.py lines
142-169).  The source wraps the whole dispatch in `try/except` and returns
the string `"[MASKING_ERROR]"` when a branch raises; the raising paths are
an unsupported `Faker` attribute (`AttributeError` from `getattr`) and a
failing `eval` of a `random.`-prefixed string.  The `fake.` and `random.`
branches wrap their result in Python `str()`; the `Faker` model already
produces strings, so `str()` is visible only on the `eval` result. -/
def applyMaskingRule (fk : Faker) (rule : String) (g : Gen) : Value × Gen :=
  if strHasLead "fake." rule then
    if fk.supported (strDropN rule 5) then
      let d := g.next
      (Value.str (fk.gen (strDropN rule 5) d.1), d.2)
    else (Value.str "[MASKING_ERROR]", g)
  else if strHasLead "random." rule then
    match pyEval rule g with
    | (Except.ok v, g') => (Value.str (pyStr v), g')
    | (Except.error _, g') => (Value.str "[MASKING_ERROR]", g')
  else if rule = "null" then
    (Value.none, g)
  else if strHasLead "regex:" rule then
    let p := generateMaskedValueFromRegex fk (strDropN rule 6) g
    (Value.str p.1, p.2)
  else (Value.str rule, g)

/-- Python `dict.get` on the rule table: the value at the matching key, if
any. -/
def lookupStr (cfg : List (String × String)) (k : String) : Option String :=
  match cfg with
  | [] => Option.none
  | kv :: rest => if kv.1 = k then some kv.2 else lookupStr rest k

/-- One field of `_anonymize_data` (src/main.py lines 135-139): the value is
replaced only when `config.get(key)` is truthy, that is, present and not the
empty string; otherwise the original value is kept and no draw is taken. -/
def maskField (fk : Faker) (cfg : List (String × String)) (k : String) (v : Value)
    (g : Gen) : Value × Gen :=
  match lookupStr cfg k with
  | some r => if r = "" then (v, g) else applyMaskingRule fk r g
  | Option.none => (v, g)

/-- Translation of `DataAnonymizer._anonymize_data` (src/main.py lines
122-140): builds a new mapping with the same keys in the same order,
masking exactly the fields whose key has a truthy rule. -/
def anonymizeData (fk : Faker) (cfg : List (String × String)) :
    List (String × Value) → Gen → List (String × Value) × Gen
  | [], g => ([], g)
  | kv :: rest, g =>
    let p := maskField fk cfg kv.1 kv.2 g
    let q := anonymizeData fk cfg rest p.2
    ((kv.1, p.1) :: q.1, q.2)

/-- Translation of `DataAnonymizer.anonymize_csv` (src/main.py lines 69-84):
applies `_anonymize_data` to each row in input order, threading the shared
generator state from row to row. -/
def anonymizeCsv (fk : Faker) (cfg : List (String × String)) :
    List (List (String × Value)) → Gen → List (List (String × Value)) × Gen
  | [], g => ([], g)
  | row :: rest, g =>
    let p := anonymizeData fk cfg row g
    let q := anonymizeCsv fk cfg rest p.2
    (p.1 :: q.1, q.2)

/-- Element-tree node as `xml.etree.ElementTree` presents it: a tag, a text
content (a string or Python `None`), and the ordered list of children. -/
inductive Xml where
  | node (tag : String) (text : Value) (children : List Xml)
deriving Repr

mutual
/-- Structural equality test for trees. -/
def Xml.beq : Xml → Xml → Bool
  | Xml.node t tx cs, Xml.node t' tx' cs' =>
    decide (t = t') && decide (tx = tx') && Xml.beqList cs cs'

/-- Structural equality test for lists of trees. -/
def Xml.beqList : List Xml → List Xml → Bool
  | [], [] => true
  | c :: cs, c' :: cs' => Xml.beq c c' && Xml.beqList cs cs'
  | [], _ :: _ => false
  | _ :: _, [] => false
end

mutual
theorem Xml.beq_iff : ∀ a b : Xml, Xml.beq a b = true ↔ a = b
  | Xml.node t tx cs, Xml.node t' tx' cs' => by
    simp only [Xml.beq, Bool.and_eq_true, decide_eq_true_eq, Xml.node.injEq]
    rw [Xml.beqList_iff cs cs']
    tauto

theorem Xml.beqList_iff : ∀ a b : List Xml, Xml.beqList a b = true ↔ a = b
  | [], [] => by simp [Xml.beqList]
  | c :: cs, c' :: cs' => by
    simp only [Xml.beqList, Bool.and_eq_true, List.cons.injEq]
    rw [Xml.beq_iff c c', Xml.beqList_iff cs cs']
  | [], _ :: _ => by simp [Xml.beqList]
  | _ :: _, [] => by simp [Xml.beqList]
end

instance : DecidableEq Xml := fun a b => decidable_of_iff _ (Xml.beq_iff a b)

/-- Tag of a node. -/
def Xml.tag : Xml → String
  | Xml.node t _ _ => t

/-- Text content of a node. -/
def Xml.text : Xml → Value
  | Xml.node _ tx _ => tx

/-- Children of a node. -/
def Xml.children : Xml → List Xml
  | Xml.node _ _ cs => cs

/-- One child of the `for child in element` loop (src/main.py lines
114-117): when the child's tag is a key of the configuration — membership,
not truthiness, so the empty rule string is applied here — its text is
replaced with the rule's value; otherwise the text is kept. -/
def maskText (fk : Faker) (cfg : List (String × String)) (t : String) (tx : Value)
    (g : Gen) : Value × Gen :=
  match lookupStr cfg t with
  | some r => applyMaskingRule fk r g
  | Option.none => (tx, g)

/-- Translation of the loop body of `DataAnonymizer._anonymize_xml_element`
(src/main.py lines 114-118), written as a pure transformation of the child
list: each child in order has its text masked when its tag is configured,
and is then recursed into unconditionally — also when it was just masked. -/
def anonymizeXmlChildren (fk : Faker) (cfg : List (String × String)) :
    List Xml → Gen → List Xml × Gen
  | [], g => ([], g)
  | Xml.node t tx cs :: rest, g =>
    let p := maskText fk cfg t tx g
    let q := anonymizeXmlChildren fk cfg cs p.2
    let r := anonymizeXmlChildren fk cfg rest q.2
    (Xml.node t p.1 q.1 :: r.1, r.2)

/-- Translation of `DataAnonymizer._anonymize_xml_element` (src/main.py
lines 106-118) at the root: the loop runs over the element's children, so
the element's own tag and text are never touched at its own level. -/
def anonymizeXmlElement (fk : Faker) (cfg : List (String × String)) (e : Xml)
    (g : Gen) : Xml × Gen :=
  let p := anonymizeXmlChildren fk cfg e.children g
  (Xml.node e.tag e.text p.1, p.2)

mutual
/-- Erases every text field of a tree: two trees have equal erasures exactly
when they have the same tags, nesting and child order. -/
def stripTexts : Xml → Xml
  | Xml.node t _ cs => Xml.node t Value.none (stripTextsList cs)

/-- Erases every text field in a list of trees. -/
def stripTextsList : List Xml → List Xml
  | [] => []
  | c :: rest => stripTexts c :: stripTextsList rest
end

/-- Node reached from a list of siblings by a nonempty path of child
indices: the head index selects a sibling, the rest of the path descends
into its children. -/
def listPathGet : List Xml → List Nat → Option Xml
  | _, [] => Option.none
  | l, [i] => l[i]?
  | l, i :: j :: pa =>
    match l[i]? with
    | some c => listPathGet c.children (j :: pa)
    | Option.none => Option.none

/-- Characterizes exactly the rule strings on which the dispatch of
`_apply_masking_rule` raises inside its `try` block: an unsupported `Faker`
attribute, or a `random.`-prefixed string whose evaluation fails (a shape
`eval` raises on, or a `randint` range with `min > max`). -/
def ruleFails (fk : Faker) (r : String) : Bool :=
  if strHasLead "fake." r then !fk.supported (strDropN r 5)
  else if strHasLead "random." r then
    match parseRandintCall r with
    | some ab => decide (ab.2 < ab.1)
    | Option.none =>
      match parseGetrandbitsCall r with
      | some _ => false
      | Option.none => true
  else false

/-- Rule variants of the specification's data model (§3). -/
inductive Rule where
  | literal (v : String)
  | syntheticField (name : String)
  | randomInt (lo hi : Int)
  | null
  | regexClass (pat : String)
  | invalid (raw : String)
deriving Repr, DecidableEq

/-- Follows the specification's RuleParser contract (§4.1) word for word,
for comparison with the source's dispatch in `applyMaskingRule`: under the
spec, a `random.`-prefixed string must match the shape `randint(min, max)`
and every other `random.`-prefixed string parses to `invalid` and is never
executed as an expression. -/
def specParseRule (raw : String) : Rule :=
  if raw = "null" then Rule.null
  else if strHasLead "fake." raw then Rule.syntheticField (strDropN raw 5)
  else if strHasLead "random." raw then
    match parseRandintCall raw with
    | some ab => Rule.randomInt ab.1 ab.2
    | Option.none => Rule.invalid raw
  else if strHasLead "regex:" raw then Rule.regexClass (strDropN raw 6)
  else Rule.literal raw

/-- Concrete `Faker` instance used by the executable examples. -/
def testFaker : Faker where
  supported := fun a => a = "name" || a = "email" || a = "ssn" || a = "phone_number"
  gen := fun a d => a ++ "#" ++ toString d

/-- Concrete generator state used by the executable examples. -/
def testGen : Gen where
  stream := fun n => n
  pos := 0

/-- Sample tree of the specification's tree-mode scenario (§8). -/
def specTree : Xml :=
  Xml.node "root" Value.none
    [Xml.node "person" Value.none
      [Xml.node "name" (Value.str "John Doe") [],
       Xml.node "email" (Value.str "j@x.com") []]]

theorem anonymizeData_keys (fk : Faker) (cfg : List (String × String)) :
    ∀ (d : List (String × Value)) (g : Gen),
      ((anonymizeData fk cfg d g).1).map Prod.fst = d.map Prod.fst
  | [], _ => rfl
  | kv :: rest, g => by
    simp [anonymizeData, anonymizeData_keys fk cfg rest (maskField fk cfg kv.1 kv.2 g).2]

theorem anonymizeData_length (fk : Faker) (cfg : List (String × String))
    (d : List (String × Value)) (g : Gen) :
    (anonymizeData fk cfg d g).1.length = d.length := by
  have h := anonymizeData_keys fk cfg d g
  have h1 := congrArg List.length h
  simpa using h1

theorem anonymizeData_getElem (fk : Faker) (cfg : List (String × String)) :
    ∀ (d : List (String × Value)) (g : Gen) (i : Nat) (kv : String × Value),
      d[i]? = some kv →
      (anonymizeData fk cfg d g).1[i]? =
        some (kv.1, (maskField fk cfg kv.1 kv.2 ((anonymizeData fk cfg (List.take i d) g).2)).1)
  | [], _, i, kv => by simp
  | kv0 :: rest, g, 0, kv => by
    intro h
    simp only [List.getElem?_cons_zero, Option.some.injEq] at h
    subst h
    simp [anonymizeData]
  | kv0 :: rest, g, i + 1, kv => by
    intro h
    simp only [List.getElem?_cons_succ] at h
    simp [anonymizeData, List.take,
      anonymizeData_getElem fk cfg rest (maskField fk cfg kv0.1 kv0.2 g).2 i kv h]

theorem anonymizeCsv_length (fk : Faker) (cfg : List (String × String)) :
    ∀ (rows : List (List (String × Value))) (g : Gen),
      (anonymizeCsv fk cfg rows g).1.length = rows.length
  | [], _ => rfl
  | row :: rest, g => by
    simp [anonymizeCsv, anonymizeCsv_length fk cfg rest (anonymizeData fk cfg row g).2]

theorem anonymizeCsv_getElem (fk : Faker) (cfg : List (String × String)) :
    ∀ (rows : List (List (String × Value))) (g : Gen) (i : Nat) (row : List (String × Value)),
      rows[i]? = some row →
      (anonymizeCsv fk cfg rows g).1[i]? =
        some ((anonymizeData fk cfg row ((anonymizeCsv fk cfg (List.take i rows) g).2)).1)
  | [], _, i, row => by simp
  | row0 :: rest, g, 0, row => by
    intro h
    simp only [List.getElem?_cons_zero, Option.some.injEq] at h
    subst h
    simp [anonymizeCsv]
  | row0 :: rest, g, i + 1, row => by
    intro h
    simp only [List.getElem?_cons_succ] at h
    simp [anonymizeCsv, List.take,
      anonymizeCsv_getElem fk cfg rest (anonymizeData fk cfg row0 g).2 i row h]

theorem maskField_not_configured (fk : Faker) (cfg : List (String × String))
    (k : String) (v : Value) (g : Gen) (h : lookupStr cfg k = Option.none) :
    maskField fk cfg k v g = (v, g) := by
  simp [maskField, h]

theorem maskField_empty_rule (fk : Faker) (cfg : List (String × String))
    (k : String) (v : Value) (g : Gen) (h : lookupStr cfg k = some "") :
    maskField fk cfg k v g = (v, g) := by
  simp [maskField, h]

theorem maskField_configured (fk : Faker) (cfg : List (String × String))
    (k : String) (v : Value) (g : Gen) (r : String) (h : lookupStr cfg k = some r)
    (hne : r ≠ "") : maskField fk cfg k v g = applyMaskingRule fk r g := by
  simp [maskField, h, hne]

theorem applyMaskingRule_fails (fk : Faker) (r : String) (h : ruleFails fk r = true)
    (g : Gen) : applyMaskingRule fk r g = (Value.str "[MASKING_ERROR]", g) := by
  unfold ruleFails at h
  unfold applyMaskingRule
  by_cases hf : strHasLead "fake." r
  · simp only [hf, if_true, if_pos] at h ⊢
    simp only [Bool.not_eq_true'] at h
    simp [h]
  · simp only [hf, Bool.false_eq_true, if_false] at h ⊢
    by_cases hr : strHasLead "random." r
    · simp only [hr, if_true] at h ⊢
      unfold pyEval
      cases hp : parseRandintCall r with
      | some ab =>
        simp only [hp, decide_eq_true_eq] at h
        simp only [hp]
        rw [if_neg (by omega)]
      | none =>
        simp only [hp] at h
        cases hq : parseGetrandbitsCall r with
        | some k => simp [hq] at h
        | none => simp [hq]
    · simp [hr] at h

theorem anonymizeXmlChildren_getElem (fk : Faker) (cfg : List (String × String)) :
    ∀ (l : List Xml) (g : Gen) (i : Nat) (c : Xml),
      l[i]? = some c →
      ∃ g1 : Gen, (anonymizeXmlChildren fk cfg l g).1[i]? =
        some (Xml.node c.tag (maskText fk cfg c.tag c.text g1).1
          (anonymizeXmlChildren fk cfg c.children (maskText fk cfg c.tag c.text g1).2).1)
  | [], _, i, c => by simp
  | Xml.node t tx cs :: rest, g, 0, c => by
    intro h
    simp only [List.getElem?_cons_zero, Option.some.injEq] at h
    subst h
    exact ⟨g, by simp [anonymizeXmlChildren, Xml.tag, Xml.text, Xml.children]⟩
  | Xml.node t tx cs :: rest, g, i + 1, c => by
    intro h
    simp only [List.getElem?_cons_succ] at h
    obtain ⟨g1, hg⟩ := anonymizeXmlChildren_getElem fk cfg rest
      (anonymizeXmlChildren fk cfg cs (maskText fk cfg t tx g).2).2 i c h
    exact ⟨g1, by simp [anonymizeXmlChildren, hg]⟩

theorem maskText_configured (fk : Faker) (cfg : List (String × String))
    (t : String) (tx : Value) (g : Gen) (r : String) (h : lookupStr cfg t = some r) :
    maskText fk cfg t tx g = applyMaskingRule fk r g := by
  simp [maskText, h]

theorem maskText_unconfigured (fk : Faker) (cfg : List (String × String))
    (t : String) (tx : Value) (g : Gen) (h : lookupStr cfg t = Option.none) :
    maskText fk cfg t tx g = (tx, g) := by
  simp [maskText, h]

theorem anonymizeXmlChildren_strip (fk : Faker) (cfg : List (String × String)) :
    ∀ (l : List Xml) (g : Gen),
      stripTextsList ((anonymizeXmlChildren fk cfg l g).1) = stripTextsList l
  | [], _ => by simp [anonymizeXmlChildren]
  | Xml.node t tx cs :: rest, g => by
    simp [anonymizeXmlChildren, stripTextsList, stripTexts,
      anonymizeXmlChildren_strip fk cfg cs (maskText fk cfg t tx g).2,
      anonymizeXmlChildren_strip fk cfg rest
        (anonymizeXmlChildren fk cfg cs (maskText fk cfg t tx g).2).2]

theorem treeMask_configured (fk : Faker) (cfg : List (String × String)) :
    ∀ (pa : List Nat) (l : List Xml) (g : Gen) (d : Xml) (r : String),
      listPathGet l pa = some d → lookupStr cfg d.tag = some r →
      ∃ (g' : Gen) (L : List Xml),
        listPathGet (anonymizeXmlChildren fk cfg l g).1 pa =
          some (Xml.node d.tag (applyMaskingRule fk r g').1 L)
  | [], l, g, d, r => by
    intro h _
    simp [listPathGet] at h
  | [i], l, g, d, r => by
    intro h hr
    simp only [listPathGet] at h ⊢
    obtain ⟨g1, hg⟩ := anonymizeXmlChildren_getElem fk cfg l g i d h
    rw [maskText_configured fk cfg d.tag d.text g1 r hr] at hg
    exact ⟨g1, _, hg⟩
  | i :: j :: pa, l, g, d, r => by
    intro h hr
    simp only [listPathGet] at h ⊢
    cases hc : l[i]? with
    | none => rw [hc] at h; simp at h
    | some c =>
      rw [hc] at h
      obtain ⟨g1, hg⟩ := anonymizeXmlChildren_getElem fk cfg l g i c hc
      rw [hg]
      simpa [Xml.children] using treeMask_configured fk cfg (j :: pa)
        c.children (maskText fk cfg c.tag c.text g1).2 d r h hr

theorem treeMask_unconfigured (fk : Faker) (cfg : List (String × String)) :
    ∀ (pa : List Nat) (l : List Xml) (g : Gen) (d : Xml),
      listPathGet l pa = some d → lookupStr cfg d.tag = Option.none →
      ∃ L : List Xml,
        listPathGet (anonymizeXmlChildren fk cfg l g).1 pa =
          some (Xml.node d.tag d.text L)
  | [], l, g, d => by
    intro h _
    simp [listPathGet] at h
  | [i], l, g, d => by
    intro h hr
    simp only [listPathGet] at h ⊢
    obtain ⟨g1, hg⟩ := anonymizeXmlChildren_getElem fk cfg l g i d h
    rw [maskText_unconfigured fk cfg d.tag d.text g1 hr] at hg
    exact ⟨_, hg⟩
  | i :: j :: pa, l, g, d => by
    intro h hr
    simp only [listPathGet] at h ⊢
    cases hc : l[i]? with
    | none => rw [hc] at h; simp at h
    | some c =>
      rw [hc] at h
      obtain ⟨g1, hg⟩ := anonymizeXmlChildren_getElem fk cfg l g i c hc
      rw [hg]
      simpa [Xml.children] using treeMask_unconfigured fk cfg (j :: pa)
        c.children (maskText fk cfg c.tag c.text g1).2 d h hr

/-- C2: each of the three masking modes — mapping (`_anonymize_data`),
sequence (`anonymize_csv`), tree (`_anonymize_xml_element`) — produces
output with the same shape and structure as the input: the same key list
(set and order) for mappings, row count and per-row key lists for
sequences, and identical tag/nesting/child-order structure for element
trees; and every field or tag whose name is absent from the rule table
keeps its original value unchanged, including its type. -/
theorem maskingPreservesShape (fk : Faker) (cfg : List (String × String))
    (d : List (String × Value)) (rows : List (List (String × Value)))
    (e : Xml) (g ga gb : Gen) :
    (((anonymizeData fk cfg d g).1).map Prod.fst = d.map Prod.fst)
  ∧ (∀ (i : Nat) (k : String) (v : Value), d[i]? = some (k, v) →
      lookupStr cfg k = Option.none →
      (anonymizeData fk cfg d g).1[i]? = some (k, v))
  ∧ ((anonymizeCsv fk cfg rows ga).1.length = rows.length)
  ∧ (∀ (i : Nat) (row : List (String × Value)), rows[i]? = some row →
      ∃ gr : Gen, (anonymizeCsv fk cfg rows ga).1[i]? =
          some ((anonymizeData fk cfg row gr).1) ∧
        ((anonymizeData fk cfg row gr).1).map Prod.fst = row.map Prod.fst)
  ∧ (stripTexts (anonymizeXmlElement fk cfg e gb).1 = stripTexts e)
  ∧ (∀ (pa : List Nat) (dd : Xml), listPathGet e.children pa = some dd →
      lookupStr cfg dd.tag = Option.none →
      ∃ L : List Xml,
        listPathGet ((anonymizeXmlElement fk cfg e gb).1).children pa =
          some (Xml.node dd.tag dd.text L)) := by
  refine ⟨anonymizeData_keys fk cfg d g, ?_, anonymizeCsv_length fk cfg rows ga, ?_, ?_, ?_⟩
  · intro i k v hi hk
    have h := anonymizeData_getElem fk cfg d g i (k, v) hi
    rw [maskField_not_configured fk cfg k v _ hk] at h
    exact h
  · intro i row hi
    exact ⟨(anonymizeCsv fk cfg (List.take i rows) ga).2,
      anonymizeCsv_getElem fk cfg rows ga i row hi,
      anonymizeData_keys fk cfg row _⟩
  · cases e with
    | node t tx cs =>
      show stripTexts (Xml.node t tx (anonymizeXmlChildren fk cfg cs gb).1) = _
      simp [stripTexts, anonymizeXmlChildren_strip fk cfg cs gb]
  · intro pa dd hp hk
    exact treeMask_unconfigured fk cfg pa e.children gb dd hp hk

/-- C2 witness: with the rule table `{name: "fake.name"}`, the unconfigured
field `age` of a record and the unconfigured node `person/email` of the
scenario tree are returned unchanged, value and type included. -/
theorem maskingPreservesShapeWitness :
    ((anonymizeData testFaker [("name", "fake.name")]
      [("name", Value.str "John"), ("age", Value.int 30)] testGen).1[1]? =
        some ("age", Value.int 30))
  ∧ (∃ L : List Xml,
      listPathGet ((anonymizeXmlElement testFaker [("name", "fake.name")]
        specTree testGen).1).children [0, 1] =
          some (Xml.node "email" (Value.str "j@x.com") L)) := by
  obtain ⟨h1, h2, h3, h4, h5, h6⟩ := maskingPreservesShape testFaker [("name", "fake.name")]
    [("name", Value.str "John"), ("age", Value.int 30)] [] specTree testGen testGen testGen
  refine ⟨h2 1 "age" (Value.int 30) (by rfl) (by rfl), ?_⟩
  simpa [Xml.tag, Xml.text] using
    h6 [0, 1] (Xml.node "email" (Value.str "j@x.com") []) (by rfl) (by rfl)

/-- C3: when evaluating a field's rule fails inside `_apply_masking_rule` —
an unsupported synthetic field name, a `random.`-prefixed string whose
evaluation raises (such as the spec's `Invalid` example
`random.bogus(1,2,3)`), or a `randint` range with `min > max` — the failure
is caught at the field boundary: the field's output value is the visible
sentinel `"[MASKING_ERROR]"`, the run is never aborted (every field of the
record is still produced), and every sibling field is still masked
according to its own rule. -/
theorem ruleFailureSentinelSiblingsMasked (fk : Faker) (cfg : List (String × String))
    (d : List (String × Value)) (g : Gen) :
    (∀ (r : String) (gr : Gen), ruleFails fk r = true →
      applyMaskingRule fk r gr = (Value.str "[MASKING_ERROR]", gr))
  ∧ ((anonymizeData fk cfg d g).1.length = d.length)
  ∧ (∀ (i : Nat) (k : String) (v : Value) (r : String), d[i]? = some (k, v) →
      lookupStr cfg k = some r → r ≠ "" → ruleFails fk r = true →
      (anonymizeData fk cfg d g).1[i]? = some (k, Value.str "[MASKING_ERROR]"))
  ∧ (∀ (i : Nat) (k : String) (v : Value) (r : String), d[i]? = some (k, v) →
      lookupStr cfg k = some r → r ≠ "" →
      ∃ gr : Gen, (anonymizeData fk cfg d g).1[i]? =
        some (k, (applyMaskingRule fk r gr).1)) := by
  refine ⟨fun r gr h => applyMaskingRule_fails fk r h gr,
    anonymizeData_length fk cfg d g, ?_, ?_⟩
  · intro i k v r hi hk hne hfail
    have h := anonymizeData_getElem fk cfg d g i (k, v) hi
    rw [maskField_configured fk cfg k v _ r hk hne,
      applyMaskingRule_fails fk r hfail] at h
    exact h
  · intro i k v r hi hk hne
    have h := anonymizeData_getElem fk cfg d g i (k, v) hi
    rw [maskField_configured fk cfg k v _ r hk hne] at h
    exact ⟨_, h⟩

/-- C3 witness: the spec's malformed-rule scenario.  With the rule table
`{ssn: "random.bogus(1,2,3)", name: "fake.name"}`, the `ssn` field becomes
the sentinel `"[MASKING_ERROR]"` while the sibling `name` field is still
masked by its own rule. -/
theorem ruleFailureSentinelWitness :
    ((anonymizeData testFaker [("ssn", "random.bogus(1,2,3)"), ("name", "fake.name")]
      [("ssn", Value.str "123-45-6789"), ("name", Value.str "John")] testGen).1[0]? =
        some ("ssn", Value.str "[MASKING_ERROR]"))
  ∧ (∃ gr : Gen,
      (anonymizeData testFaker [("ssn", "random.bogus(1,2,3)"), ("name", "fake.name")]
        [("ssn", Value.str "123-45-6789"), ("name", Value.str "John")] testGen).1[1]? =
          some ("name", (applyMaskingRule testFaker "fake.name" gr).1)) := by
  obtain ⟨h1, h2, h3, h4⟩ := ruleFailureSentinelSiblingsMasked testFaker
    [("ssn", "random.bogus(1,2,3)"), ("name", "fake.name")]
    [("ssn", Value.str "123-45-6789"), ("name", Value.str "John")] testGen
  exact ⟨h3 0 "ssn" (Value.str "123-45-6789") "random.bogus(1,2,3)"
      (by rfl) (by rfl) (by decide) (by decide),
    h4 1 "name" (Value.str "John") "fake.name" (by rfl) (by rfl) (by decide)⟩

/-- C5: tree mode is a depth-first traversal in which every node below the
root whose tag has a rule-table entry — at every nesting depth, including
descendants of a node that was itself just masked, since the source recurses
into a child regardless of whether it masked it — has its text content
replaced with the evaluated rule value (evaluated at the generator state the
traversal reaches there). -/
theorem treeModeMasksAllConfiguredDescendants (fk : Faker)
    (cfg : List (String × String)) (e : Xml) (g : Gen) (pa : List Nat) (d : Xml)
    (r : String) (h : listPathGet e.children pa = some d)
    (hr : lookupStr cfg d.tag = some r) :
    ∃ (g' : Gen) (L : List Xml),
      listPathGet ((anonymizeXmlElement fk cfg e g).1).children pa =
        some (Xml.node d.tag (applyMaskingRule fk r g').1 L) := by
  have he : ((anonymizeXmlElement fk cfg e g).1).children =
      (anonymizeXmlChildren fk cfg e.children g).1 := rfl
  rw [he]
  exact treeMask_configured fk cfg pa e.children g d r h hr

/-- C5 witness: the spec's tree scenario `root > person > name,email` with
rule table `{name: "fake.name"}`.  The node at path `person/name` — one
level below a traversed child — has its text replaced by the evaluated
rule. -/
theorem treeModeMasksWitness :
    ∃ (g' : Gen) (L : List Xml),
      listPathGet ((anonymizeXmlElement testFaker [("name", "fake.name")]
        specTree testGen).1).children [0, 0] =
          some (Xml.node "name" (applyMaskingRule testFaker "fake.name" g').1 L) := by
  have h := treeModeMasksAllConfiguredDescendants testFaker [("name", "fake.name")]
    specTree testGen [0, 0] (Xml.node "name" (Value.str "John Doe") []) "fake.name"
    (by rfl) (by rfl)
  simpa [Xml.tag] using h

/-- C9: the source's tree walker loops over the children of the element it
is given, so the root element itself is never checked against the rule
table: its own tag and text content survive unchanged for every rule table
and every tree — also, as in the closed conjunct, when the root's tag has a
rule-table entry. -/
theorem rootElementNeverMasked (fk : Faker) (cfg : List (String × String))
    (e : Xml) (g : Gen) :
    ((anonymizeXmlElement fk cfg e g).1.text = e.text)
  ∧ ((anonymizeXmlElement fk cfg e g).1.tag = e.tag)
  ∧ ((anonymizeXmlElement testFaker [("root", "fake.name")]
      (Xml.node "root" (Value.str "secret") []) testGen).1.text =
        Value.str "secret") :=
  ⟨rfl, rfl, rfl⟩

/-- C7 counterexample: with a shared generator and the rule table
`{age: "random.randint(0,9)"}`, two runs that differ only in the first row
(in one the first row has a maskable `age` field, in the other it does not)
give different outputs for the identical second row: masking one row's
field does affect another row's output, because the rows share the
generator state. -/
theorem sequenceSharedStateCounterexample :
    (([[("age", Value.int 30)], [("age", Value.int 25)]] :
        List (List (String × Value)))[1]? =
      ([[("name", Value.str "x")], [("age", Value.int 25)]] :
        List (List (String × Value)))[1]?)
  ∧ ((anonymizeCsv testFaker [("age", "random.randint(0,9)")]
      [[("age", Value.int 30)], [("age", Value.int 25)]] testGen).1[1]? ≠
    (anonymizeCsv testFaker [("age", "random.randint(0,9)")]
      [[("name", Value.str "x")], [("age", Value.int 25)]] testGen).1[1]?) := by
  exact ⟨rfl, by decide⟩

/-- C7 as amended: sequence mode produces an output sequence of the same
length, in input order, whose `i`-th element is mapping mode applied to the
`i`-th input element at the generator state left behind by the preceding
rows; rows share no state beyond the read-only rule table and that
sequentially consumed generator state. -/
theorem sequenceModeRowwise (fk : Faker) (cfg : List (String × String))
    (rows : List (List (String × Value))) (g : Gen) :
    ((anonymizeCsv fk cfg rows g).1.length = rows.length)
  ∧ (∀ (i : Nat) (row : List (String × Value)), rows[i]? = some row →
      (anonymizeCsv fk cfg rows g).1[i]? =
        some ((anonymizeData fk cfg row
          ((anonymizeCsv fk cfg (List.take i rows) g).2)).1)) :=
  ⟨anonymizeCsv_length fk cfg rows g,
   fun i row h => anonymizeCsv_getElem fk cfg rows g i row h⟩

/-- C7 witness: the second row of a two-row batch equals mapping mode
applied to that row at the generator state left by the first row. -/
theorem sequenceModeRowwiseWitness :
    (anonymizeCsv testFaker [("age", "random.randint(0,9)")]
      [[("age", Value.int 30)], [("age", Value.int 25)]] testGen).1[1]? =
      some ((anonymizeData testFaker [("age", "random.randint(0,9)")]
        [("age", Value.int 25)]
        ((anonymizeCsv testFaker [("age", "random.randint(0,9)")]
          (List.take 1 [[("age", Value.int 30)], [("age", Value.int 25)]])
          testGen).2)).1) :=
  (sequenceModeRowwise testFaker [("age", "random.randint(0,9)")]
    [[("age", Value.int 30)], [("age", Value.int 25)]] testGen).2 1
    [("age", Value.int 25)] (by rfl)

/-- C8: in mapping mode a key that is present in the rule table with the
empty rule string `""` is skipped by the source's truthiness test
`if rule:`, so the field keeps its original value — although the parse
contract would classify `""` as a `Literal` rule substituting the empty
string (and tree mode, which tests membership instead of truthiness, would
apply it). -/
theorem emptyRuleSkipped (fk : Faker) (cfg : List (String × String))
    (d : List (String × Value)) (g : Gen) :
    (specParseRule "" = Rule.literal "")
  ∧ (∀ (i : Nat) (k : String) (v : Value), d[i]? = some (k, v) →
      lookupStr cfg k = some "" →
      (anonymizeData fk cfg d g).1[i]? = some (k, v)) := by
  refine ⟨rfl, ?_⟩
  intro i k v hi hk
  have h := anonymizeData_getElem fk cfg d g i (k, v) hi
  rw [maskField_empty_rule fk cfg k v _ hk] at h
  exact h

/-- C8 witness: with rule table `{name: ""}` the `name` field keeps its
original value. -/
theorem emptyRuleSkippedWitness :
    (anonymizeData testFaker [("name", "")] [("name", Value.str "John")]
      testGen).1[0]? = some ("name", Value.str "John") :=
  (emptyRuleSkipped testFaker [("name", "")] [("name", Value.str "John")]
    testGen).2 0 "name" (Value.str "John") (by rfl) (by rfl)

/-- C4: evaluating a regex rule classifies the declared pattern by exact
string match against a fixed table — the SSN, e-mail and phone patterns
delegate to the synthetic source's corresponding category (taking one draw),
and every pattern outside the table evaluates to the fixed sentinel
`"[MASKED_VALUE]"`; no pattern makes the function raise, as witnessed by it
being total with exactly these outcomes.  The closed conjuncts run the full
rule path through `applyMaskingRule`. -/
theorem regexClassificationTable (fk : Faker) (g : Gen) (pat : String) :
    (pat = ssnPattern → ∃ (dr : Nat) (g' : Gen),
      generateMaskedValueFromRegex fk pat g = (fk.gen "ssn" dr, g'))
  ∧ (pat = emailPattern → ∃ (dr : Nat) (g' : Gen),
      generateMaskedValueFromRegex fk pat g = (fk.gen "email" dr, g'))
  ∧ (pat = phonePattern → ∃ (dr : Nat) (g' : Gen),
      generateMaskedValueFromRegex fk pat g = (fk.gen "phone_number" dr, g'))
  ∧ (pat ≠ ssnPattern → pat ≠ emailPattern → pat ≠ phonePattern →
      generateMaskedValueFromRegex fk pat g = ("[MASKED_VALUE]", g))
  ∧ ((applyMaskingRule testFaker "regex:unknown-pattern" testGen).1 =
      Value.str "[MASKED_VALUE]")
  ∧ ((applyMaskingRule testFaker ("regex:" ++ ssnPattern) testGen).1 =
      Value.str (testFaker.gen "ssn" 0)) := by
  refine ⟨?_, ?_, ?_, ?_, by decide, by decide⟩
  · rintro rfl
    exact ⟨g.next.1, g.next.2, by unfold generateMaskedValueFromRegex; rw [if_pos rfl]⟩
  · rintro rfl
    exact ⟨g.next.1, g.next.2, by
      unfold generateMaskedValueFromRegex
      rw [if_neg (by decide), if_pos rfl]⟩
  · rintro rfl
    exact ⟨g.next.1, g.next.2, by
      unfold generateMaskedValueFromRegex
      rw [if_neg (by decide), if_neg (by decide), if_pos rfl]⟩
  · intro h1 h2 h3
    unfold generateMaskedValueFromRegex
    rw [if_neg h1, if_neg h2, if_neg h3]

/-- C4 witness: the SSN pattern delegates to the source's `ssn` category,
and an unregistered pattern yields the fixed `"[MASKED_VALUE]"` sentinel
without an error. -/
theorem regexClassificationTableWitness :
    (∃ (dr : Nat) (g' : Gen),
      generateMaskedValueFromRegex testFaker ssnPattern testGen =
        (testFaker.gen "ssn" dr, g'))
  ∧ (generateMaskedValueFromRegex testFaker "unknown-pattern" testGen =
      ("[MASKED_VALUE]", testGen)) :=
  ⟨(regexClassificationTable testFaker testGen ssnPattern).1 rfl,
   (regexClassificationTable testFaker testGen "unknown-pattern").2.2.2.1
     (by decide) (by decide) (by decide)⟩

/-- C6: parsing the exact string `"null"` yields the `Null` rule, and
evaluating it yields the explicit absence marker — Python `None`, modelled
as `Value.none` — and never the literal string `"null"`. -/
theorem nullRuleYieldsAbsenceMarker :
    (specParseRule "null" = Rule.null)
  ∧ (∀ (fk : Faker) (g : Gen), applyMaskingRule fk "null" g = (Value.none, g))
  ∧ (Value.none ≠ Value.str "null") :=
  ⟨rfl, fun _ _ => rfl, by decide⟩

/-- C10: for every rule other than the exact string `"null"`, the masked
value `_apply_masking_rule` produces is a string: a successful `eval` of a
`random.`-prefixed rule is coerced with `str()` — so an integer field
masked by a `randint` rule becomes the decimal rendering of the drawn
integer — and a rule carrying no recognized marker is returned as the raw
rule string itself. -/
theorem maskedValuesAreStrings (fk : Faker) (r : String) (g : Gen) :
    (r ≠ "null" → ∃ s : String, (applyMaskingRule fk r g).1 = Value.str s)
  ∧ (∀ (v : Value) (g' : Gen), strHasLead "fake." r = false →
      strHasLead "random." r = true → pyEval r g = (Except.ok v, g') →
      applyMaskingRule fk r g = (Value.str (pyStr v), g'))
  ∧ (∀ n : Int, pyStr (Value.int n) = toString n)
  ∧ (strHasLead "fake." r = false → strHasLead "random." r = false →
      r ≠ "null" → strHasLead "regex:" r = false →
      applyMaskingRule fk r g = (Value.str r, g)) := by
  refine ⟨?_, ?_, fun n => rfl, ?_⟩
  · intro hnull
    unfold applyMaskingRule
    repeat' split
    all_goals exact ⟨_, rfl⟩
  · intro v g' hf hr hp
    simp [applyMaskingRule, hf, hr, hp]
  · intro h1 h2 h3 h4
    simp [applyMaskingRule, h1, h2, h3, h4]

/-- C10 witness: a `randint` rule masking an integer field yields the
decimal string of the drawn integer, and an unprefixed rule yields the raw
rule string. -/
theorem maskedValuesAreStringsWitness :
    (∃ s : String,
      (applyMaskingRule testFaker "random.randint(18,65)" testGen).1 = Value.str s)
  ∧ (applyMaskingRule testFaker "random.randint(18,65)" testGen =
      (Value.str (pyStr (Value.int 18)),
        (pyEval "random.randint(18,65)" testGen).2))
  ∧ (applyMaskingRule testFaker "Confidential" testGen =
      (Value.str "Confidential", testGen)) := by
  obtain ⟨h1, h2, h3, h4⟩ := maskedValuesAreStrings testFaker "random.randint(18,65)" testGen
  obtain ⟨k1, k2, k3, k4⟩ := maskedValuesAreStrings testFaker "Confidential" testGen
  exact ⟨h1 (by decide),
    h2 (Value.int 18) (pyEval "random.randint(18,65)" testGen).2
      (by decide) (by decide) rfl,
    k4 (by decide) (by decide) (by decide) (by decide)⟩

/-- C1: the divergence between the parse contract and the source.  Under
the contract, `random.getrandbits(4)` does not have the `randint(min, max)`
shape and must parse to `Invalid` without ever being executed; the source
instead passes the string to `eval`, executes it, and returns its value
(here the decimal string `"0"`), which is not the error sentinel.  The last
two conjuncts record the part of the claim the source does satisfy: a
`randint(min, max)` rule with `min ≤ max` — here the spec's example
`randint(18, 65)` — always evaluates to an integer within the inclusive
range. -/
theorem randomPrefixExecutedNotInvalid :
    (specParseRule "random.getrandbits(4)" = Rule.invalid "random.getrandbits(4)")
  ∧ ((applyMaskingRule testFaker "random.getrandbits(4)" testGen).1 = Value.str "0")
  ∧ (Value.str "0" ≠ Value.str "[MASKING_ERROR]")
  ∧ (specParseRule "random.randint(18,65)" = Rule.randomInt 18 65)
  ∧ (∀ g : Gen, ∃ n : Int,
      (pyEval "random.randint(18,65)" g).1 = Except.ok (Value.int n)
      ∧ 18 ≤ n ∧ n ≤ 65) := by
  refine ⟨by decide, by decide, by decide, by decide, ?_⟩
  intro g
  have h0 : (0 : Int) ≤ (g.stream g.pos : Int) % 48 :=
    Int.emod_nonneg _ (by norm_num)
  have h1 : (g.stream g.pos : Int) % 48 < 48 :=
    Int.emod_lt_of_pos _ (by norm_num)
  exact ⟨18 + ((g.stream g.pos : Int) % 48), rfl, by omega, by omega⟩
